import Mathlib

/-!
Verification of the Robo-Trader decision core against its specification.

The Python source is shallowly embedded: floats become exact rationals,
dictionaries become structures or association lists, and fallible calls
become `Except` values.  Every definition is transcribed from the source
files named in its doc comment.
-/

namespace RoboTrader

/-- Python `int(q)` truncates toward zero: floor for nonnegative
arguments, ceiling for negative ones. -/
def pyInt (q : ℚ) : ℤ :=
  if 0 ≤ q then ⌊q⌋ else ⌈q⌉

theorem pyInt_eq_floor (q : ℚ) (h : 0 ≤ q) : pyInt q = ⌊q⌋ := by
  simp [pyInt, h]

/-! ## RiskManager (services/risk/risk.py)

Configuration values are read from environment variables / YAML in the
source (`RISK_MAX_SINGLE_NAME` etc.); they are modelled as a record of
rationals, with the source defaults as `defaultRiskConfig`. -/

structure RiskConfig where
  max_position_size : ℚ
  max_gross_exposure : ℚ
  max_net_exposure : ℚ
  daily_drawdown_halt : ℚ
  stop_loss_pct : ℚ
  take_profit_pct : ℚ

/-- Defaults from risk.py: 0.02, 0.60, 0.40, 0.02, 0.05, 0.15. -/
def defaultRiskConfig : RiskConfig :=
  { max_position_size := 2/100
    max_gross_exposure := 60/100
    max_net_exposure := 40/100
    daily_drawdown_halt := 2/100
    stop_loss_pct := 5/100
    take_profit_pct := 15/100 }

/-- RiskManager.calculate_position_size (risk.py lines 42-59).
The `symbol` argument of the source is unused there and omitted. -/
def calculate_position_size (cfg : RiskConfig) (signal_strength : ℚ)
    (account_equity : ℚ) (current_price : ℚ) : ℤ :=
  let max_position_value := account_equity * cfg.max_position_size
  let adjusted_value := max_position_value * min 1 signal_strength
  let shares := pyInt (adjusted_value / current_price)
  let min_shares := max 1 (pyInt (100 / current_price))
  let max_shares := pyInt (50000 / current_price)
  max min_shares (min shares max_shares)

/-- A proposed order dictionary.  `price` is optional: risk.py reads it
as order.get with default 100.  The optional stop/take fields are
attached by `optimize_portfolio`. -/
structure PyOrder where
  symbol : String
  side : String
  qty : ℚ
  order_type : String
  price : Option ℚ
  stop_loss : Option ℚ
  take_profit : Option ℚ
  confidence : ℚ
  deriving DecidableEq

/-- A brokerage position dictionary (fields used by risk.py). -/
structure PyPosition where
  symbol : String
  qty : ℚ
  market_value : ℚ
  deriving DecidableEq

/-- Current gross exposure seed: sum of |market_value| over positions. -/
def currentGross (positions : List PyPosition) : ℚ :=
  (positions.map (fun p => |p.market_value|)).sum

/-- Long-side seed: sum of market_value over positions with qty > 0. -/
def currentLong (positions : List PyPosition) : ℚ :=
  ((positions.filter (fun p => 0 < p.qty)).map (fun p => p.market_value)).sum

/-- Short-side seed: sum of |market_value| over positions with qty < 0. -/
def currentShort (positions : List PyPosition) : ℚ :=
  ((positions.filter (fun p => p.qty < 0)).map (fun p => |p.market_value|)).sum

/-- Loop body of RiskManager.check_exposure_limits (risk.py lines 73-99).
The seeds `gross`, `long`, `short` are computed once before the loop and,
as in the source, are never updated inside it.  The numeric amount that
the source interpolates into the first violation message is elided. -/
def exposure_loop (cfg : RiskConfig) (gross long short equity : ℚ) :
    List PyOrder → List PyOrder × List String
  | [] => ([], [])
  | order :: rest =>
    let acc := exposure_loop cfg gross long short equity rest
    let order_value := order.qty * order.price.getD 100
    if order_value > equity * cfg.max_position_size then
      (acc.1, (order.symbol ++ ": Position size exceeds limit") :: acc.2)
    else if gross + |order_value| > equity * cfg.max_gross_exposure then
      (acc.1, (order.symbol ++ ": Would exceed gross exposure limit") :: acc.2)
    else
      let new_net :=
        if order.side = "buy" then (long - short + order_value) / equity
        else (long - short - order_value) / equity
      if |new_net| > cfg.max_net_exposure then
        (acc.1, (order.symbol ++ ": Would exceed net exposure limit") :: acc.2)
      else
        (order :: acc.1, acc.2)

/-- RiskManager.check_exposure_limits (risk.py lines 61-104). -/
def check_exposure_limits (cfg : RiskConfig) (proposed_orders : List PyOrder)
    (current_positions : List PyPosition) (account_equity : ℚ) :
    List PyOrder × List String :=
  exposure_loop cfg (currentGross current_positions) (currentLong current_positions)
    (currentShort current_positions) account_equity proposed_orders

/-- The three static checks one order faces in check_exposure_limits,
phrased against the position-derived seeds only. -/
def order_passes (cfg : RiskConfig) (gross long short equity : ℚ)
    (order : PyOrder) : Bool :=
  let order_value := order.qty * order.price.getD 100
  let new_net :=
    if order.side = "buy" then (long - short + order_value) / equity
    else (long - short - order_value) / equity
  decide (order_value ≤ equity * cfg.max_position_size) &&
    decide (gross + |order_value| ≤ equity * cfg.max_gross_exposure) &&
    decide (|new_net| ≤ cfg.max_net_exposure)

/-- RiskManager.calculate_stop_loss (risk.py lines 106-113). -/
def calculate_stop_loss (cfg : RiskConfig) (entry_price : ℚ) (side : String) : ℚ :=
  if side = "buy" then entry_price * (1 - cfg.stop_loss_pct)
  else entry_price * (1 + cfg.stop_loss_pct)

/-- RiskManager.calculate_take_profit (risk.py lines 115-122). -/
def calculate_take_profit (cfg : RiskConfig) (entry_price : ℚ) (side : String) : ℚ :=
  if side = "buy" then entry_price * (1 + cfg.take_profit_pct)
  else entry_price * (1 - cfg.take_profit_pct)

/-- RiskManager.check_circuit_breakers (risk.py lines 124-141).  The
account dict is passed as its two consulted fields.  The percentage the
source appends to the drawdown message is elided from the string. -/
def check_circuit_breakers (cfg : RiskConfig) (equity last_equity : ℚ) :
    Bool × String :=
  if 0 < last_equity then
    let daily_return := (equity - last_equity) / last_equity
    if daily_return < -cfg.daily_drawdown_halt then
      (false, "Daily drawdown limit hit")
    else
      (true, "All circuit breakers passed")
  else
    (true, "All circuit breakers passed")

/-- A per-symbol entry of the signal list handed between pipeline stages. -/
structure SignalRec where
  symbol : String
  score : ℚ
  action : String
  deriving DecidableEq

/-- Stable descending insertion by score: models Python
sorted(signals, key score, reverse) used in optimize_portfolio. -/
def insertDesc (s : SignalRec) : List SignalRec → List SignalRec
  | [] => [s]
  | t :: ts => if t.score < s.score then s :: t :: ts else t :: insertDesc s ts

/-- Stable descending sort by score (ties keep input order). -/
def sortByScoreDesc : List SignalRec → List SignalRec
  | [] => []
  | s :: ss => insertDesc s (sortByScoreDesc ss)

/-- Loop body of RiskManager.optimize_portfolio (risk.py lines 157-198):
walks the ranked signals, sizes each buy against the remaining equity and
stops (break) when the running allocation would exceed the gross budget.
`latestPrice` models the PriceData query for the latest close. -/
def optimize_loop (cfg : RiskConfig) (latestPrice : String → Option ℚ)
    (equity : ℚ) : List SignalRec → ℚ → List PyOrder
  | [], _ => []
  | signal :: rest, total_allocated =>
    if signal.action ≠ "buy" then optimize_loop cfg latestPrice equity rest total_allocated
    else
      match latestPrice signal.symbol with
      | none => optimize_loop cfg latestPrice equity rest total_allocated
      | some current_price =>
        let position_size :=
          calculate_position_size cfg signal.score (equity - total_allocated) current_price
        if 0 < position_size then
          let order_value := (position_size : ℚ) * current_price
          if equity * cfg.max_gross_exposure < total_allocated + order_value then
            []
          else
            { symbol := signal.symbol
              side := "buy"
              qty := (position_size : ℚ)
              order_type := "market"
              price := some current_price
              stop_loss := some (calculate_stop_loss cfg current_price "buy")
              take_profit := some (calculate_take_profit cfg current_price "buy")
              confidence := signal.score } ::
              optimize_loop cfg latestPrice equity rest (total_allocated + order_value)
        else optimize_loop cfg latestPrice equity rest total_allocated

/-- RiskManager.optimize_portfolio (risk.py lines 143-204). -/
def optimize_portfolio (cfg : RiskConfig) (latestPrice : String → Option ℚ)
    (signals : List SignalRec) (equity : ℚ) : List PyOrder :=
  optimize_loop cfg latestPrice equity ((sortByScoreDesc signals).take 20) 0

/-- The risk-metrics dictionary built by RiskManager.calculate_risk_metrics. -/
structure RiskMetrics where
  gross_exposure : ℚ
  net_exposure : ℚ
  position_count : ℕ
  max_position_pct : ℚ
  current_gross : ℚ
  current_net : ℚ
  proposed_value : ℚ
  deriving DecidableEq

/-- RiskManager.calculate_risk_metrics (risk.py lines 206-232). -/
def calculate_risk_metrics (cfg : RiskConfig) (orders : List PyOrder)
    (positions : List PyPosition) (account_equity : ℚ) : RiskMetrics :=
  let current_gross := currentGross positions
  let current_long := currentLong positions
  let current_short := currentShort positions
  let order_value := (orders.map (fun o => o.qty * o.price.getD 100)).sum
  let total_gross := current_gross + |order_value|
  let total_net := current_long - current_short + order_value
  { gross_exposure := if 0 < account_equity then total_gross / account_equity else 0
    net_exposure := if 0 < account_equity then total_net / account_equity else 0
    position_count := positions.length + orders.length
    max_position_pct := cfg.max_position_size
    current_gross := current_gross
    current_net := current_long - current_short
    proposed_value := order_value }

/-! ## SignalEngine (services/signals/signals.py)

The `ta` library internals (RSI, MACD) and np.exp live outside the
repository; they are abstracted as a record of functions of the close
series.  Everything guarding and combining them is transcribed from
signals.py. -/

/-- A daily price bar row as built in generate_signals. -/
structure Bar where
  date : ℕ
  open_price : ℚ
  high : ℚ
  low : ℚ
  close : ℚ
  volume : ℚ
  deriving DecidableEq

instance : Inhabited Bar := ⟨⟨0, 0, 0, 0, 0, 0⟩⟩

/-- External numeric collaborators of signals.py: the ta-library RSI,
the ta-library MACD (signal line, histogram), and the sigmoid
x maps-to 1/(1+exp(-10 x)) used for MACD normalization. -/
structure TaLib where
  taRsi : List ℚ → ℚ
  taMacd : List ℚ → ℚ × ℚ
  sigmoid10 : ℚ → ℚ

/-- SignalGenerator.calculate_momentum (signals.py lines 63-73):
return from the close 252 bars ago to the close 21 bars ago. -/
def calculate_momentum (prices : List Bar) : ℚ :=
  if prices.length < 252 then 0
  else
    let price_12m_ago := (prices.getD (prices.length - 252) default).close
    let price_1m_ago := (prices.getD (prices.length - 21) default).close
    if 0 < price_12m_ago then (price_1m_ago - price_12m_ago) / price_12m_ago else 0

/-- SignalGenerator.calculate_rsi (signals.py lines 75-81): neutral 50
below 14 bars, else the ta-library RSI of the close series. -/
def calculate_rsi (ta : TaLib) (prices : List Bar) : ℚ :=
  if prices.length < 14 then 50 else ta.taRsi (prices.map (·.close))

/-- SignalGenerator.calculate_macd (signals.py lines 83-92): zero pair
below 26 bars, else the ta-library MACD (signal, histogram). -/
def calculate_macd (ta : TaLib) (prices : List Bar) : ℚ × ℚ :=
  if prices.length < 26 then (0, 0) else ta.taMacd (prices.map (·.close))

/-- SignalGenerator.calculate_volume_surge (signals.py lines 94-104):
current volume over the 20-bar rolling average volume. -/
def calculate_volume_surge (prices : List Bar) : ℚ :=
  if prices.length < 20 then 0
  else
    let avg_volume := ((prices.map (·.volume)).drop (prices.length - 20)).sum / 20
    let current_volume := (prices.getD (prices.length - 1) default).volume
    if 0 < avg_volume then current_volume / avg_volume else 1

/-- SignalGenerator.normalize_factor (signals.py lines 151-176). -/
def normalize_factor (ta : TaLib) (factor_name : String) (value : ℚ) : ℚ :=
  if factor_name = "momentum" then max 0 (min 1 ((value + 1/2) / 1))
  else if factor_name = "rsi" then
    if value < 30 then 8/10 + (30 - value) / 150
    else if 70 < value then 2/10 - (value - 70) / 150
    else 1/2
  else if factor_name = "macd_histogram" then ta.sigmoid10 value
  else if factor_name = "volume_surge" then
    if 2 < value then min 1 (1/2 + (value - 1) * (25/100)) else 1/2
  else 1/2

/-- One configured factor entry of strategy config: weight and enabled. -/
structure FactorWeight where
  weight : ℚ
  enabled : Bool
  deriving DecidableEq

/-- Association-list lookup (Python `name in dict` / `dict[name]`). -/
def alookup {α : Type} (key : String) : List (String × α) → Option α
  | [] => none
  | kv :: rest => if kv.1 = key then some kv.2 else alookup key rest

/-- The default factor configuration of
SignalGenerator._load_strategy_config (signals.py lines 47-56). -/
def default_factors : List (String × FactorWeight) :=
  [("momentum_12_1", ⟨25/100, true⟩),
   ("rsi_14", ⟨15/100, true⟩),
   ("macd", ⟨20/100, true⟩),
   ("volume_surge", ⟨15/100, true⟩),
   ("earnings_drift", ⟨15/100, true⟩),
   ("news_sentiment", ⟨10/100, true⟩)]

/-- Fold of the loop in SignalGenerator.calculate_composite_score
(signals.py lines 140-145), accumulating (weighted_sum, total_weight). -/
def composite_fold (ta : TaLib) (weights : List (String × FactorWeight)) :
    List (String × ℚ) → ℚ × ℚ
  | [] => (0, 0)
  | (factor_name, factor_value) :: rest =>
    let acc := composite_fold ta weights rest
    match alookup factor_name weights with
    | some fw =>
      if fw.enabled then
        (acc.1 + normalize_factor ta factor_name factor_value * fw.weight,
         acc.2 + fw.weight)
      else acc
    | none => acc

/-- SignalGenerator.calculate_composite_score (signals.py lines 134-149). -/
def calculate_composite_score (ta : TaLib)
    (weights : List (String × FactorWeight)) (factors : List (String × ℚ)) : ℚ :=
  let acc := composite_fold ta weights factors
  if 0 < acc.2 then acc.1 / acc.2 else 1/2

/-- The factors dictionary built per symbol in generate_signals
(signals.py lines 218-223), in its insertion order. -/
def factor_map (ta : TaLib) (prices : List Bar) : List (String × ℚ) :=
  [("momentum", calculate_momentum prices),
   ("rsi", calculate_rsi ta prices),
   ("macd_histogram", (calculate_macd ta prices).2),
   ("volume_surge", calculate_volume_surge prices)]

/-- One appended Signal audit row (signals.py lines 245-254). -/
structure AuditRecord where
  symbol : String
  factor_name : String
  raw_value : ℚ
  normalized_score : ℚ
  weight : ℚ
  deriving DecidableEq

/-- The weight stored on an audit row: strategy factors lookup of the
computed factor name, defaulting to 0 (signals.py line 251). -/
def audit_weight (weights : List (String × FactorWeight)) (name : String) : ℚ :=
  match alookup name weights with
  | some fw => fw.weight
  | none => 0

/-- The scored output entry for one symbol (signals.py lines 266-272). -/
def score_entry (ta : TaLib) (weights : List (String × FactorWeight))
    (symbol : String) (prices : List Bar) : SignalRec :=
  let score := calculate_composite_score ta weights (factor_map ta prices)
  { symbol := symbol
    score := score
    action := if 6/10 < score then "buy" else if score < 4/10 then "sell" else "hold" }

/-- The audit rows appended for one symbol (signals.py lines 236-254). -/
def audit_rows (ta : TaLib) (weights : List (String × FactorWeight))
    (symbol : String) (prices : List Bar) : List AuditRecord :=
  (factor_map ta prices).map fun f =>
    { symbol := symbol
      factor_name := f.1
      raw_value := f.2
      normalized_score := normalize_factor ta f.1 f.2
      weight := audit_weight weights f.1 }

/-- Main loop of SignalGenerator.generate_signals (signals.py lines
192-279) over per-symbol price histories: symbols with fewer than 20
bars are skipped, the rest are scored and audited.  Returns the signal
list and the appended audit rows. -/
def generate_signals (ta : TaLib) (weights : List (String × FactorWeight)) :
    List (String × List Bar) → List SignalRec × List AuditRecord
  | [] => ([], [])
  | (symbol, prices) :: rest =>
    let (sigs, audits) := generate_signals ta weights rest
    if prices.length < 20 then (sigs, audits)
    else
      (score_entry ta weights symbol prices :: sigs,
       audit_rows ta weights symbol prices ++ audits)

/-! ## DataProviderChain (libs/data_providers.py)

The chain used by the scheduler/ingest service.  Provider HTTP calls
are abstracted: each provider is its configured name, availability, and
a fetch function returning either per-symbol bar series or a raised
exception.  The source classifies an exception as a rate limit when its
text contains 429 or the phrase rate limit; that classification is
carried as a Boolean on the modelled error. -/

structure ProviderErr where
  msg : String
  rate_limited : Bool

structure ProviderImpl where
  name : String
  available : Bool
  fetch : List String → Except ProviderErr (List (String × List Bar))

/-- Python dict assignment on the cooldown map: replace the value of an
existing key, else append the binding. -/
def dictSet (key : String) (value : ℚ) :
    List (String × ℚ) → List (String × ℚ)
  | [] => [(key, value)]
  | kv :: rest =>
    if kv.1 = key then (kv.1, value) :: rest else kv :: dictSet key value rest

/-- Python del on the cooldown map: drop every binding of the key
(the map never holds duplicate keys). -/
def dictDel (key : String) (m : List (String × ℚ)) : List (String × ℚ) :=
  m.filter (fun kv => kv.1 ≠ key)

/-- Accumulated state of one fetch_daily_bars run.  `calls` records the
names of providers whose fetch was actually invoked, in order. -/
structure FetchAcc where
  results : List (String × List Bar)
  remaining : List String
  cooldowns : List (String × ℚ)
  calls : List String

/-- The per-symbol merge loop (data_providers.py lines 379-383): add a
returned series when non-empty and discard the symbol from the
remaining set. -/
def merge_results : List (String × List Bar) → List (String × List Bar) →
    List String → List (String × List Bar) × List String
  | [], results, remaining => (results, remaining)
  | kv :: rest, results, remaining =>
    if kv.2 = [] then merge_results rest results remaining
    else merge_results rest (results ++ [kv]) (remaining.erase kv.1)

/-- The batch cap applied before calling a provider (data_providers.py
lines 353-362): Alpha Vantage is limited to 3 symbols and Polygon to 10;
the others receive the whole remaining set. -/
def symbols_to_fetch (name : String) (remaining : List String) : List String :=
  if name = "Alpha Vantage" then remaining.take 3
  else if name = "Polygon" then remaining.take 10
  else remaining

/-- The try block of the provider loop (data_providers.py lines
347-400): skip Alpha Vantage for large batches, call the provider,
apply the Finnhub under-half cooldown heuristic on success, set a 60s
cooldown on a rate-limit-classified exception, and merge results. -/
def chain_try (now : ℚ) (p : ProviderImpl) (acc : FetchAcc) : FetchAcc :=
  if p.name = "Alpha Vantage" ∧ 10 < acc.remaining.length then acc
  else
    let toFetch := symbols_to_fetch p.name acc.remaining
    match p.fetch toFetch with
    | Except.error e =>
      if e.rate_limited then
        { acc with
          cooldowns := dictSet p.name (now + 60) acc.cooldowns
          calls := acc.calls ++ [p.name] }
      else { acc with calls := acc.calls ++ [p.name] }
    | Except.ok res =>
      let cooldowns2 :=
        if 2 * res.length < toFetch.length ∧ p.name = "Finnhub" then
          dictSet p.name (now + 60) acc.cooldowns
        else acc.cooldowns
      let merged := merge_results res acc.results acc.remaining
      { results := merged.1
        remaining := merged.2
        cooldowns := cooldowns2
        calls := acc.calls ++ [p.name] }

/-- One iteration of the provider loop (data_providers.py lines
328-345): stop when nothing remains, skip a provider whose cooldown is
in the future (deleting an expired one), skip unavailable providers,
else run the try block. -/
def chain_step (now : ℚ) (p : ProviderImpl) (acc : FetchAcc) : FetchAcc :=
  if acc.remaining = [] then acc
  else
    match alookup p.name acc.cooldowns with
    | some cooldown_until =>
      if now < cooldown_until then acc
      else
        let acc2 := { acc with cooldowns := dictDel p.name acc.cooldowns }
        if p.available then chain_try now p acc2 else acc2
    | none =>
      if p.available then chain_try now p acc else acc

/-- The provider loop of DataProviderChain.fetch_daily_bars. -/
def run_chain (now : ℚ) : List ProviderImpl → FetchAcc → FetchAcc
  | [], acc => acc
  | p :: ps, acc => run_chain now ps (chain_step now p acc)

/-- DataProviderChain.fetch_daily_bars (data_providers.py lines
322-405), with the cooldown map threaded in and out so that successive
scheduler runs can be chained.  The input symbol list becomes a set
(dedup); the returned remaining list is the unresolved set the source
logs at the end of the run. -/
def fetch_daily_bars (providers : List ProviderImpl)
    (cooldowns : List (String × ℚ)) (now : ℚ) (symbols : List String) :
    FetchAcc :=
  run_chain now providers
    { results := [], remaining := symbols.dedup, cooldowns := cooldowns, calls := [] }

/-! ## TradingPipeline (services/api/pipeline.py)

The orchestrator.  External effects (redis kill switch plus broker
account reads inside _check_circuit_breakers, the database commit of the
plan, the per-order broker submissions, the executed-flag commit) are
modelled as `Except`-valued stage outcomes carried in a `PipelineEnv`.
The `_ingest_news`, `_fetch_market_data`, `_generate_signals` and
`_generate_reports` helpers each catch their own exceptions and degrade,
so they cannot raise into run; their net contribution is the signal list
`PipelineEnv.signals`. -/

/-- The in-memory trade-plan dictionary passed between stages.  `errMsg`
models the dict key named error written by the risk stage on failure. -/
structure PlanDict where
  mode : String
  orders : List PyOrder
  signals : List SignalRec
  notes : Option String
  errMsg : Option String
  risk_violations : List String
  risk_metrics : Option RiskMetrics

/-- TradingPipeline._create_trade_plan (pipeline.py lines 156-176):
draft one qty-10 market buy per buy signal scoring above 0.6. -/
def create_trade_plan (mode : String) (signals : List SignalRec) : PlanDict :=
  { mode := mode
    orders := (signals.filter fun s => s.action = "buy" ∧ 6/10 < s.score).map fun s =>
      { symbol := s.symbol
        side := "buy"
        qty := 10
        order_type := "market"
        price := none
        stop_loss := none
        take_profit := none
        confidence := s.score }
    signals := signals
    notes := none
    errMsg := none
    risk_violations := []
    risk_metrics := none }

/-- The outside-world reads consumed by _apply_risk_management: the broker
account snapshot, the broker positions, and the latest stored close per
symbol used by optimize_portfolio. -/
structure RiskInputs where
  equity : ℚ
  last_equity : ℚ
  positions : List PyPosition
  latestPrice : String → Option ℚ

/-- TradingPipeline._apply_risk_management (pipeline.py lines 178-228).
An exception anywhere in the stage (modelled up front as the error case
of `inputs`) hits the fail-closed handler: orders are cleared and the
message is stored under the error key of the plan dict. -/
def apply_risk_management (cfg : RiskConfig) (inputs : Except String RiskInputs)
    (plan : PlanDict) : PlanDict :=
  match inputs with
  | Except.error e => { plan with orders := [], errMsg := some e }
  | Except.ok inp =>
    let breaker := check_circuit_breakers cfg inp.equity inp.last_equity
    if breaker.1 = false then
      { plan with orders := [], notes := some breaker.2 }
    else
      let orders1 :=
        if plan.signals ≠ [] then
          optimize_portfolio cfg inp.latestPrice plan.signals inp.equity
        else plan.orders
      let checked := check_exposure_limits cfg orders1 inp.positions inp.equity
      { plan with
        orders := checked.1
        risk_violations := checked.2
        risk_metrics := some (calculate_risk_metrics cfg checked.1 inp.positions inp.equity) }

/-- The persisted TradePlan row (pipeline.py lines 234-244).  The
source column named universe is `universe_list` here. -/
structure DBTradePlan where
  mode : String
  universe_list : List String
  orders : List PyOrder
  risk_metrics : Option RiskMetrics
  notes : String
  approved : Bool
  executed : Bool

/-- TradingPipeline._save_trade_plan (pipeline.py lines 230-251): the
row content written by the insert.  Its notes field is always the fixed
Generated-N-orders text. -/
def save_trade_plan (mode : String) (plan : PlanDict) : DBTradePlan :=
  { mode := mode
    universe_list := plan.orders.map (·.symbol)
    orders := plan.orders
    risk_metrics := plan.risk_metrics
    notes := "Generated " ++ toString plan.orders.length ++ " orders"
    approved := false
    executed := false }

/-- Submission loop of TradingPipeline._execute_trades (pipeline.py
lines 261-278): each order is submitted in isolation; a failure is
recorded and the loop continues. -/
def exec_loop (placeOrder : PyOrder → Except String String) :
    List PyOrder → List String × List (String × String)
  | [] => ([], [])
  | order :: rest =>
    let acc := exec_loop placeOrder rest
    match placeOrder order with
    | Except.ok r => (r :: acc.1, acc.2)
    | Except.error e => (acc.1, (order.symbol, e) :: acc.2)

/-- The execution results dictionary of _execute_trades. -/
structure ExecResults where
  submitted : List String
  failed : List (String × String)
  total : ℕ

/-- TradingPipeline._execute_trades (pipeline.py lines 253-290), minus
the database flag update, which `persisted_trade_plan` accounts for. -/
def execute_trades (placeOrder : PyOrder → Except String String)
    (orders : List PyOrder) : ExecResults :=
  let acc := exec_loop placeOrder orders
  { submitted := acc.1, failed := acc.2, total := orders.length }

/-- Stage outcomes and configuration of one pipeline run. -/
structure PipelineEnv where
  mode : String
  auto_execute : Bool
  riskConfig : RiskConfig
  breaker : Except String Bool
  signals : List SignalRec
  riskInputs : Except String RiskInputs
  savePlanId : Except String ℕ
  placeOrder : PyOrder → Except String String
  execUpdate : Except String Unit

/-- The two keyword flags of TradingPipeline.run.  `force` is accepted
but never read in the body of run. -/
structure Flags where
  force : Bool
  dry_run : Bool

/-- The structured dictionary returned by TradingPipeline.run; absent
keys are `none`. -/
structure RunResult where
  status : String
  reason : Option String
  errMsg : Option String
  plan_id : Option ℕ
  mode : Option String
  ordersCount : Option ℕ
  executed : Option Bool
  deriving DecidableEq

/-- The error dictionary built by the catch-all of run (line 67). -/
def errorResult (e : String) : RunResult :=
  ⟨"error", none, some e, none, none, none, none⟩

/-- The halted dictionary (pipeline.py line 29). -/
def haltedResult : RunResult :=
  ⟨"halted", some "Circuit breaker triggered", none, none, none, none, none⟩

/-- The completed dictionary (pipeline.py lines 57-63); its executed
entry is the gate condition itself, not a submission outcome. -/
def completedResult (plan_id : ℕ) (mode : String) (ordersCount : ℕ)
    (gate : Bool) : RunResult :=
  ⟨"completed", none, none, some plan_id, some mode, some ordersCount, some gate⟩

/-- The execution gate of run (pipeline.py line 50). -/
def gate_open (env : PipelineEnv) (flags : Flags) : Bool :=
  env.auto_execute && !flags.dry_run

/-- The plan after the draft and risk stages of run. -/
def plan_after_risk (env : PipelineEnv) : PlanDict :=
  apply_risk_management env.riskConfig env.riskInputs
    (create_trade_plan env.mode env.signals)

/-- The try block of TradingPipeline.run (pipeline.py lines 26-63):
breaker check, degradable data stages, plan draft, risk filter, persist,
gated execution, report.  An error value is an exception escaping a
stage boundary. -/
def runBody (env : PipelineEnv) (flags : Flags) : Except String RunResult :=
  match env.breaker with
  | Except.error e => Except.error e
  | Except.ok false => Except.ok haltedResult
  | Except.ok true =>
    let plan := plan_after_risk env
    match env.savePlanId with
    | Except.error e => Except.error e
    | Except.ok plan_id =>
      if gate_open env flags then
        match env.execUpdate with
        | Except.error e => Except.error e
        | Except.ok _ =>
          Except.ok (completedResult plan_id env.mode plan.orders.length true)
      else Except.ok (completedResult plan_id env.mode plan.orders.length false)

/-- TradingPipeline.run (pipeline.py lines 22-67): the try body wrapped
in the catch-all that converts any escaped exception into the error
dictionary. -/
def run (env : PipelineEnv) (flags : Flags) : RunResult :=
  match runBody env flags with
  | Except.ok r => r
  | Except.error e => errorResult e

/-- The successful broker submissions of the run: the submitted list of
_execute_trades when the gate was open, empty otherwise. -/
def run_submitted (env : PipelineEnv) (flags : Flags) : List String :=
  if gate_open env flags then
    (execute_trades env.placeOrder (plan_after_risk env).orders).submitted
  else []

/-- The TradePlan row as left in the database at the end of the run:
none when the run halted or never reached a successful insert; the
executed flag is rewritten to submitted-nonempty by _execute_trades
(pipeline.py lines 280-288) when the gate was open and that update
committed. -/
def persisted_trade_plan (env : PipelineEnv) (flags : Flags) : Option DBTradePlan :=
  match env.breaker with
  | Except.error _ => none
  | Except.ok false => none
  | Except.ok true =>
    match env.savePlanId with
    | Except.error _ => none
    | Except.ok _ =>
      let base := save_trade_plan env.mode (plan_after_risk env)
      if gate_open env flags then
        match env.execUpdate with
        | Except.ok _ =>
          some { base with
            executed := decide
              (0 < (execute_trades env.placeOrder (plan_after_risk env).orders).submitted.length) }
        | Except.error _ => some base
      else some base

/-! ## Concrete sample values used by witnesses and counterexamples -/

/-- A one-day bar with unit prices and volume. -/
def bar1 : Bar := ⟨0, 1, 1, 1, 1, 1⟩

/-- External factor collaborators stubbed at zero. -/
def ta0 : TaLib := ⟨fun _ => 0, fun _ => (0, 0), fun _ => 0⟩

/-- An exposure configuration under which two orders can each satisfy
the single-name cap while their sum bursts the gross cap. -/
def cfgC1 : RiskConfig :=
  { max_position_size := 1/2
    max_gross_exposure := 60/100
    max_net_exposure := 1
    daily_drawdown_halt := 2/100
    stop_loss_pct := 5/100
    take_profit_pct := 15/100 }

/-- A 350-share buy at 100: order value 35000. -/
def orderC1a : PyOrder :=
  ⟨"AAA", "buy", 350, "market", some 100, none, none, 7/10⟩

/-- A second 350-share buy at 100. -/
def orderC1b : PyOrder :=
  ⟨"BBB", "buy", 350, "market", some 100, none, none, 7/10⟩

/-- A draft plan holding one order, fed to the failing risk stage. -/
def planC7 : PlanDict :=
  { mode := "paper"
    orders := [orderC1a]
    signals := []
    notes := none
    errMsg := none
    risk_violations := []
    risk_metrics := none }

/-! ## Claim C6: circuit-breaker trip condition -/

/-- C6: check_circuit_breakers returns ok = false exactly when
last_equity is positive and the daily return falls below minus the halt
threshold, and the reason is then the drawdown message; equity 100000
against 100000 passes, and 97000 against 100000 at threshold 0.02
trips. -/
theorem c6_breaker_trip_iff :
    (∀ cfg : RiskConfig, ∀ equity last_equity : ℚ,
      ((check_circuit_breakers cfg equity last_equity).1 = false ↔
        (0 < last_equity ∧
          (equity - last_equity) / last_equity < -cfg.daily_drawdown_halt)) ∧
      ((check_circuit_breakers cfg equity last_equity).1 = false →
        (check_circuit_breakers cfg equity last_equity).2 = "Daily drawdown limit hit")) ∧
    (check_circuit_breakers defaultRiskConfig 100000 100000).1 = true ∧
    (check_circuit_breakers defaultRiskConfig 97000 100000).1 = false := by
  refine ⟨fun cfg equity last_equity => ?_, ?_, ?_⟩
  · unfold check_circuit_breakers
    by_cases h1 : 0 < last_equity
    · by_cases h2 : (equity - last_equity) / last_equity < -cfg.daily_drawdown_halt
      · simp [h1, h2]
      · simp [h1, h2]
    · simp [h1]
  · unfold check_circuit_breakers defaultRiskConfig
    norm_num
  · unfold check_circuit_breakers defaultRiskConfig
    norm_num

/-- C6 witness: a 5 percent drop against a 2 percent halt trips. -/
theorem c6_breaker_trip_iff_witness :
    (check_circuit_breakers defaultRiskConfig 95000 100000).1 = false :=
  (c6_breaker_trip_iff.1 defaultRiskConfig 95000 100000).1.mpr
    ⟨by norm_num, by norm_num [defaultRiskConfig]⟩

/-! ## Claim C2: position sizing clamp -/

/-- C2 (amended): under nonnegative inputs the returned share count is
max(lo, min(shares, hi)) for shares = floor(adjusted/price),
lo = max(1, floor(100/price)), hi = floor(50000/price); when lo ≤ hi
this clamps into [lo, hi], but when lo exceeds hi the function returns
lo — at least one share above the 50000 cap — not 0. -/
theorem c2_position_size_clamp (cfg : RiskConfig) (s equity price : ℚ)
    (hs0 : 0 ≤ s) (hs1 : s ≤ 1) (he : 0 ≤ equity) (hp : 0 < price)
    (hf : 0 ≤ cfg.max_position_size) :
    calculate_position_size cfg s equity price =
      max (max 1 ⌊(100 : ℚ) / price⌋)
        (min ⌊equity * cfg.max_position_size * min 1 s / price⌋
          ⌊(50000 : ℚ) / price⌋) ∧
    (max 1 ⌊(100 : ℚ) / price⌋ ≤ ⌊(50000 : ℚ) / price⌋ →
      max 1 ⌊(100 : ℚ) / price⌋ ≤ calculate_position_size cfg s equity price ∧
        calculate_position_size cfg s equity price ≤ ⌊(50000 : ℚ) / price⌋) ∧
    (⌊(50000 : ℚ) / price⌋ < max 1 ⌊(100 : ℚ) / price⌋ →
      calculate_position_size cfg s equity price = max 1 ⌊(100 : ℚ) / price⌋) := by
  have hm : 0 ≤ min 1 s := le_min (by norm_num) hs0
  have hshares : pyInt (equity * cfg.max_position_size * min 1 s / price) =
      ⌊equity * cfg.max_position_size * min 1 s / price⌋ :=
    pyInt_eq_floor _ (div_nonneg (mul_nonneg (mul_nonneg he hf) hm) hp.le)
  have h100 : pyInt ((100 : ℚ) / price) = ⌊(100 : ℚ) / price⌋ :=
    pyInt_eq_floor _ (div_nonneg (by norm_num) hp.le)
  have h50k : pyInt ((50000 : ℚ) / price) = ⌊(50000 : ℚ) / price⌋ :=
    pyInt_eq_floor _ (div_nonneg (by norm_num) hp.le)
  have hval : calculate_position_size cfg s equity price =
      max (max 1 ⌊(100 : ℚ) / price⌋)
        (min ⌊equity * cfg.max_position_size * min 1 s / price⌋
          ⌊(50000 : ℚ) / price⌋) := by
    unfold calculate_position_size
    dsimp only
    rw [hshares, h100, h50k]
  refine ⟨hval, fun hle => ⟨?_, ?_⟩, fun hgt => ?_⟩
  · rw [hval]; exact le_max_left _ _
  · rw [hval]
    exact max_le hle (min_le_right _ _)
  · rw [hval]
    exact max_eq_left (le_trans (min_le_right _ _) hgt.le)

/-- C2 witness: the specification example equity 100000, fraction 0.02,
price 100, strength 0.8 takes the clamp form (evaluating to 16). -/
theorem c2_position_size_clamp_witness :
    calculate_position_size defaultRiskConfig (8/10) 100000 100 =
      max (max 1 ⌊(100 : ℚ) / 100⌋)
        (min ⌊(100000 : ℚ) * defaultRiskConfig.max_position_size * min 1 (8/10) / 100⌋
          ⌊(50000 : ℚ) / 100⌋) :=
  (c2_position_size_clamp defaultRiskConfig (8/10) 100000 100 (by norm_num)
    (by norm_num) (by norm_num) (by norm_num)
    (by norm_num [defaultRiskConfig])).1

/-- C2 counterexample: at price 60000 the minimum-share floor (1)
exceeds the 50000-cap ceiling (0), yet the function returns 1 — a share
above the cap — not the 0 the claim states. -/
theorem c2_position_size_counterexample :
    calculate_position_size defaultRiskConfig 1 100000 60000 = 1 ∧
    ⌊(50000 : ℚ) / 60000⌋ < max 1 ⌊(100 : ℚ) / 60000⌋ ∧ (1 : ℤ) ≠ 0 := by
  refine ⟨?_, by norm_num, by norm_num⟩
  unfold calculate_position_size pyInt defaultRiskConfig
  norm_num

/-! ## Claim C7: fail-closed risk stage and the persisted notes -/

/-- C7 (amended): when the risk stage raises, the order set is cleared
before persistence and the message lands in the error key of the
in-memory plan, but the persisted notes field is always the fixed
Generated-0-orders text, which does not carry the error. -/
theorem c7_risk_filter_fail_closed (cfg : RiskConfig) (e : String)
    (plan : PlanDict) (mode : String) :
    (apply_risk_management cfg (Except.error e) plan).orders = [] ∧
    (apply_risk_management cfg (Except.error e) plan).errMsg = some e ∧
    (save_trade_plan mode (apply_risk_management cfg (Except.error e) plan)).orders = [] ∧
    (save_trade_plan mode (apply_risk_management cfg (Except.error e) plan)).notes =
      "Generated 0 orders" := by
  refine ⟨rfl, rfl, rfl, ?_⟩
  show "Generated " ++ toString (List.length ([] : List PyOrder)) ++ " orders" = _
  rfl

/-- C7 counterexample: two different risk-stage errors leave identical
persisted notes, the fixed Generated-0-orders text — the claim that the
error is recorded in the persisted notes fails. -/
theorem c7_notes_counterexample :
    (save_trade_plan "paper"
      (apply_risk_management defaultRiskConfig (Except.error "boom") planC7)).notes =
      "Generated 0 orders" ∧
    (save_trade_plan "paper"
      (apply_risk_management defaultRiskConfig
        (Except.error "database timeout") planC7)).notes =
      "Generated 0 orders" ∧
    (apply_risk_management defaultRiskConfig (Except.error "boom") planC7).errMsg =
      some "boom" := by
  exact ⟨rfl, rfl, rfl⟩

/-! ## Claim C8: run never raises and surfaces stage errors as status error -/

/-- C8: for every stage-outcome environment and flag combination, run
returns a structured result whose status is halted, completed or error,
and whenever the try body raises (an uncaught stage exception), run
returns the error dictionary rather than propagating. -/
theorem c8_run_never_raises (env : PipelineEnv) (flags : Flags) :
    ((run env flags).status = "halted" ∨ (run env flags).status = "completed" ∨
      (run env flags).status = "error") ∧
    (∀ e, runBody env flags = Except.error e → run env flags = errorResult e) := by
  constructor
  · unfold run runBody
    rcases hb : env.breaker with e | b
    · simp [errorResult]
    · rcases b
      · simp [haltedResult]
      · rcases hs : env.savePlanId with e2 | pid
        · simp [errorResult]
        · by_cases hg : gate_open env flags = true
          · rcases hx : env.execUpdate with e3 | u
            · simp [hg, errorResult]
            · simp [hg, completedResult]
          · simp [hg, completedResult]
  · intro e h
    unfold run
    rw [h]

/-- A run environment whose breaker stage raises. -/
def envC8 : PipelineEnv :=
  { mode := "paper"
    auto_execute := true
    riskConfig := defaultRiskConfig
    breaker := Except.error "redis down"
    signals := []
    riskInputs := Except.error "broker down"
    savePlanId := Except.ok 1
    placeOrder := fun _ => Except.error "rejected"
    execUpdate := Except.ok () }

/-- C8 witness: a raising breaker stage yields the error dictionary. -/
theorem c8_run_never_raises_witness :
    run envC8 ⟨false, false⟩ = errorResult "redis down" :=
  (c8_run_never_raises envC8 ⟨false, false⟩).2 "redis down" rfl

/-! ## Claim C10: the executed field versus the persisted executed flag -/

/-- C10: when the breaker passes, the insert succeeds and the flag
update commits, the executed entry of the run dictionary equals the
execution-gate condition, independent of the submission outcomes, while
the persisted TradePlan has executed true exactly when at least one
submission succeeded; concretely, a gated run with no proposed orders
reports executed true while the persisted flag stays false. -/
theorem c10_executed_field_vs_flag :
    (∀ (env : PipelineEnv) (flags : Flags) (pid : ℕ),
      env.breaker = Except.ok true → env.savePlanId = Except.ok pid →
      env.execUpdate = Except.ok () →
      (run env flags).executed = some (gate_open env flags) ∧
      ∃ db, persisted_trade_plan env flags = some db ∧
        (db.executed = true ↔ run_submitted env flags ≠ [])) ∧
    ((run { envC8 with breaker := Except.ok true } ⟨false, false⟩).executed = some true ∧
      run_submitted { envC8 with breaker := Except.ok true } ⟨false, false⟩ = [] ∧
      (persisted_trade_plan { envC8 with breaker := Except.ok true }
          ⟨false, false⟩).map (·.executed) = some false) := by
  constructor
  · intro env flags pid hb hs hx
    constructor
    · cases hg : gate_open env flags
      · simp [run, runBody, hb, hs, hg, completedResult]
      · simp [run, runBody, hb, hs, hg, hx, completedResult]
    · unfold persisted_trade_plan run_submitted
      rw [hb, hs]
      dsimp only
      cases hg : gate_open env flags
      · simp [save_trade_plan]
      · simp [hx, List.length_pos]
  · refine ⟨?_, ?_, ?_⟩
    · rfl
    · rfl
    · rfl

/-- C10 witness: the universal part applied to the concrete gated
environment with no orders. -/
theorem c10_executed_field_vs_flag_witness :
    (run { envC8 with breaker := Except.ok true } ⟨true, false⟩).executed =
      some (gate_open { envC8 with breaker := Except.ok true } ⟨true, false⟩) ∧
    ∃ db, persisted_trade_plan { envC8 with breaker := Except.ok true }
        ⟨true, false⟩ = some db ∧
      (db.executed = true ↔
        run_submitted { envC8 with breaker := Except.ok true } ⟨true, false⟩ ≠ []) :=
  c10_executed_field_vs_flag.1 { envC8 with breaker := Except.ok true }
    ⟨true, false⟩ 1 rfl rfl rfl

/-! ## Claim C1: exposure limits are not cumulative -/

/-- The approved component of the exposure loop is a plain filter
against the position-derived seeds: whether an order is approved never
depends on the orders before it. -/
theorem exposure_loop_eq_filter (cfg : RiskConfig) (gross long short equity : ℚ)
    (orders : List PyOrder) :
    (exposure_loop cfg gross long short equity orders).1 =
      orders.filter (order_passes cfg gross long short equity) := by
  induction orders with
  | nil => rfl
  | cons o rest ih =>
    unfold exposure_loop
    dsimp only
    rw [List.filter_cons]
    by_cases h1 : o.qty * o.price.getD 100 > equity * cfg.max_position_size
    · simp [order_passes, h1, not_lt.mpr h1.le, ih, le_of_lt]
      simp [not_le.mpr h1]
    · by_cases h2 : gross + |o.qty * o.price.getD 100| > equity * cfg.max_gross_exposure
      · rw [if_neg h1, if_pos h2]
        have : order_passes cfg gross long short equity o = false := by
          simp [order_passes, not_le.mpr h2]
        simp [this, ih]
      · by_cases h3 : |(if o.side = "buy" then
            (long - short + o.qty * o.price.getD 100) / equity
            else (long - short - o.qty * o.price.getD 100) / equity)| >
            cfg.max_net_exposure
        · rw [if_neg h1, if_neg h2]
          rw [if_pos h3]
          have : order_passes cfg gross long short equity o = false := by
            simp [order_passes, not_le.mpr h3]
          simp [this, ih]
        · rw [if_neg h1, if_neg h2]
          rw [if_neg h3]
          have : order_passes cfg gross long short equity o = true := by
            simp [order_passes, not_lt.mp h1, not_lt.mp h2, not_lt.mp h3]
          simp [this, ih]

/-- C1 (amended): check_exposure_limits judges every proposed order
against the same seeds derived from the current positions — the running
totals are never updated after an approval, so approval is a filter and
carries no first-come priority; in the two-order scenario of the claim
(each order within the single-name and gross caps, their sum above the
gross cap, empty positions) both orders are approved. -/
theorem c1_exposure_not_cumulative :
    (∀ (cfg : RiskConfig) (proposed : List PyOrder)
        (positions : List PyPosition) (equity : ℚ),
      (check_exposure_limits cfg proposed positions equity).1 =
        proposed.filter
          (order_passes cfg (currentGross positions) (currentLong positions)
            (currentShort positions) equity)) ∧
    (check_exposure_limits cfgC1 [orderC1a, orderC1b] [] 100000).1 =
      [orderC1a, orderC1b] := by
  constructor
  · intro cfg proposed positions equity
    exact exposure_loop_eq_filter cfg _ _ _ equity proposed
  · have habs : |(350 : ℚ) * 100| = 350 * 100 := abs_of_nonneg (by norm_num)
    have habs3 : |(7 : ℚ)/20| = 7/20 := abs_of_nonneg (by norm_num)
    simp [check_exposure_limits, exposure_loop, currentGross, currentLong,
      currentShort, cfgC1, orderC1a, orderC1b, habs]
    norm_num [habs3]

/-- C1 counterexample: with both orders inside the single-name and
gross caps individually, their sum above the gross cap, and empty
positions, the code approves both orders (the claim requires the second
to be rejected against cumulative totals). -/
theorem c1_counterexample :
    orderC1a.qty * (orderC1a.price.getD 100) ≤ 100000 * cfgC1.max_position_size ∧
    orderC1b.qty * (orderC1b.price.getD 100) ≤ 100000 * cfgC1.max_position_size ∧
    |orderC1a.qty * (orderC1a.price.getD 100)| ≤ 100000 * cfgC1.max_gross_exposure ∧
    |orderC1b.qty * (orderC1b.price.getD 100)| ≤ 100000 * cfgC1.max_gross_exposure ∧
    100000 * cfgC1.max_gross_exposure <
      orderC1a.qty * (orderC1a.price.getD 100) +
        orderC1b.qty * (orderC1b.price.getD 100) ∧
    (check_exposure_limits cfgC1 [orderC1a, orderC1b] [] 100000).1 =
      [orderC1a, orderC1b] := by
  have habs : |(350 : ℚ) * 100| = 350 * 100 := abs_of_nonneg (by norm_num)
  have habs3 : |(7 : ℚ)/20| = 7/20 := abs_of_nonneg (by norm_num)
  refine ⟨?_, ?_, ?_, ?_, ?_, ?_⟩
  · simp [orderC1a, cfgC1]; norm_num
  · simp [orderC1b, cfgC1]; norm_num
  · simp [orderC1a, cfgC1, habs]; norm_num
  · simp [orderC1b, cfgC1, habs]; norm_num
  · simp [orderC1a, orderC1b, cfgC1]; norm_num
  · simp [check_exposure_limits, exposure_loop, currentGross, currentLong,
      currentShort, cfgC1, orderC1a, orderC1b, habs]
    norm_num [habs3]

/-! ## Claim C3: default factor names miss the computed factor map -/

/-- C3: the computed factor names momentum, rsi and macd_histogram do
not occur among the configured default factor names, so the composite
score of every factor map built by generate_signals equals the
normalized volume_surge value alone, and the audit rows for the three
mismatched factors carry weight 0. -/
theorem c3_default_config_mismatch :
    (∀ (ta : TaLib) (m r h v : ℚ),
      calculate_composite_score ta default_factors
        [("momentum", m), ("rsi", r), ("macd_histogram", h), ("volume_surge", v)] =
        normalize_factor ta "volume_surge" v) ∧
    (∀ (ta : TaLib) (prices : List Bar),
      calculate_composite_score ta default_factors (factor_map ta prices) =
        normalize_factor ta "volume_surge" (calculate_volume_surge prices)) ∧
    (∀ (ta : TaLib) (histories : List (String × List Bar)),
      ∀ rec ∈ (generate_signals ta default_factors histories).2,
        (rec.factor_name = "momentum" ∨ rec.factor_name = "rsi" ∨
          rec.factor_name = "macd_histogram") → rec.weight = 0) := by
  have h1 : ∀ (ta : TaLib) (m r h v : ℚ),
      calculate_composite_score ta default_factors
        [("momentum", m), ("rsi", r), ("macd_histogram", h), ("volume_surge", v)] =
        normalize_factor ta "volume_surge" v := by
    intro ta m r h v
    simp [calculate_composite_score, composite_fold, alookup, default_factors]
  refine ⟨h1, fun ta prices => h1 ta _ _ _ _, ?_⟩
  intro ta histories
  induction histories with
  | nil =>
    intro rec hmem
    simp [generate_signals] at hmem
  | cons hd rest ih =>
    intro rec hmem hname
    unfold generate_signals at hmem
    dsimp only at hmem
    by_cases hl : hd.2.length < 20
    · rw [if_pos hl] at hmem
      exact ih rec hmem hname
    · rw [if_neg hl] at hmem
      dsimp only at hmem
      rcases List.mem_append.mp hmem with hleft | hright
      · simp only [audit_rows, factor_map, List.map_cons, List.map_nil,
          List.mem_cons, List.not_mem_nil, or_false] at hleft
        rcases hleft with h | h | h | h <;> subst h <;>
          simp_all [audit_weight, alookup, default_factors]
      · exact ih rec hright hname

/-- The first audit row generated for a 20-bar history. -/
def c3SampleRow : AuditRecord :=
  { symbol := "AAA"
    factor_name := "momentum"
    raw_value := calculate_momentum (List.replicate 20 bar1)
    normalized_score := normalize_factor ta0 "momentum"
      (calculate_momentum (List.replicate 20 bar1))
    weight := audit_weight default_factors "momentum" }

/-- C3 witness: the momentum audit row of a concrete 20-bar history
carries weight 0. -/
theorem c3_default_config_mismatch_witness : c3SampleRow.weight = 0 :=
  c3_default_config_mismatch.2.2 ta0 [("AAA", List.replicate 20 bar1)]
    c3SampleRow
    (by
      unfold generate_signals
      simp [audit_rows, factor_map, c3SampleRow])
    (Or.inl rfl)

/-! ## Claim C9: the 20-bar minimum for scoring -/

/-- Every scored entry originates from a history of at least 20 bars. -/
theorem generate_signals_mem_origin (ta : TaLib)
    (weights : List (String × FactorWeight)) :
    ∀ (histories : List (String × List Bar)) (entry : SignalRec),
      entry ∈ (generate_signals ta weights histories).1 →
      ∃ prices, (entry.symbol, prices) ∈ histories ∧ 20 ≤ prices.length ∧
        entry = score_entry ta weights entry.symbol prices := by
  intro histories
  induction histories with
  | nil =>
    intro entry hmem
    simp [generate_signals] at hmem
  | cons hd rest ih =>
    intro entry hmem
    unfold generate_signals at hmem
    dsimp only at hmem
    by_cases hl : hd.2.length < 20
    · rw [if_pos hl] at hmem
      obtain ⟨prices, hp, hlen, hentry⟩ := ih entry hmem
      exact ⟨prices, List.mem_cons_of_mem _ hp, hlen, hentry⟩
    · rw [if_neg hl] at hmem
      rcases List.mem_cons.mp hmem with heq | htail
      · refine ⟨hd.2, ?_, not_lt.mp hl, ?_⟩
        · rw [heq]
          exact List.mem_cons_self _ _
        · rw [heq]
          rfl
      · obtain ⟨prices, hp, hlen, hentry⟩ := ih entry htail
        exact ⟨prices, List.mem_cons_of_mem _ hp, hlen, hentry⟩

/-- In a list with duplicate-free keys, a key determines its value. -/
theorem nodup_keys_functional {α : Type} :
    ∀ (l : List (String × α)) (k : String) (a b : α),
      (l.map Prod.fst).Nodup → (k, a) ∈ l → (k, b) ∈ l → a = b := by
  intro l
  induction l with
  | nil =>
    intro k a b _ ha
    simp at ha
  | cons hd rest ih =>
    intro k a b hnd ha hb
    rw [List.map_cons, List.nodup_cons] at hnd
    rcases List.mem_cons.mp ha with ha1 | ha2 <;>
      rcases List.mem_cons.mp hb with hb1 | hb2
    · rw [← ha1] at hb1
      exact (Prod.mk.injEq _ _ _ _ ▸ hb1).2.symm
    · exfalso
      apply hnd.1
      have hk : k ∈ rest.map Prod.fst := by
        simpa using List.mem_map_of_mem Prod.fst hb2
      rw [← ha1]
      exact hk
    · exfalso
      apply hnd.1
      have hk : k ∈ rest.map Prod.fst := by
        simpa using List.mem_map_of_mem Prod.fst ha2
      rw [← hb1]
      exact hk
    · exact ih k a b hnd.2 ha2 hb2

/-- C9: with one history per symbol, a symbol with fewer than 20 bars
receives no entry in the signal output at all, while a symbol with at
least 20 bars receives a scored entry. -/
theorem c9_twenty_bar_minimum (ta : TaLib)
    (weights : List (String × FactorWeight))
    (histories : List (String × List Bar))
    (hnd : (histories.map Prod.fst).Nodup) :
    (∀ symbol prices, (symbol, prices) ∈ histories → prices.length < 20 →
      ∀ entry ∈ (generate_signals ta weights histories).1, entry.symbol ≠ symbol) ∧
    (∀ symbol prices, (symbol, prices) ∈ histories → 20 ≤ prices.length →
      ∃ entry ∈ (generate_signals ta weights histories).1, entry.symbol = symbol) := by
  constructor
  · intro symbol prices hmem hlt entry hent heq
    obtain ⟨pr, hp, hlen, _⟩ := generate_signals_mem_origin ta weights histories entry hent
    rw [heq] at hp
    have := nodup_keys_functional histories symbol pr prices hnd hp hmem
    rw [this] at hlen
    exact absurd hlen (not_le.mpr hlt)
  · intro symbol prices hmem hge
    induction histories with
    | nil => simp at hmem
    | cons hd rest ih =>
      unfold generate_signals
      dsimp only
      rcases List.mem_cons.mp hmem with heq | htail
      · rw [← heq]
        rw [if_neg (not_lt.mpr hge)]
        exact ⟨score_entry ta weights symbol prices, List.mem_cons_self _ _, rfl⟩
      · have hndr : (rest.map Prod.fst).Nodup :=
          (List.nodup_cons.mp (List.map_cons Prod.fst hd rest ▸ hnd)).2
        obtain ⟨entry, hent, hsym⟩ := ih hndr htail
        by_cases hl : hd.2.length < 20
        · rw [if_pos hl]
          exact ⟨entry, hent, hsym⟩
        · rw [if_neg hl]
          exact ⟨entry, List.mem_cons_of_mem _ hent, hsym⟩

/-- C9 witness: with a 20-bar AAA history and a 1-bar BB history, the
AAA entry exists and its symbol is not BB. -/
theorem c9_twenty_bar_minimum_witness :
    (score_entry ta0 default_factors "AAA" (List.replicate 20 bar1)).symbol ≠ "BB" :=
  (c9_twenty_bar_minimum ta0 default_factors
      [("AAA", List.replicate 20 bar1), ("BB", [bar1])] (by decide)).1
    "BB" [bar1] (by simp) (by norm_num)
    (score_entry ta0 default_factors "AAA" (List.replicate 20 bar1))
    (by
      unfold generate_signals
      simp)

/-! ## Claim C5: the provider chain partitions the symbol set -/

/-- The run invariant of fetch_daily_bars relative to the input symbol
list S: results and remaining cover exactly S, never overlap, every
result series is non-empty, and the remaining set is duplicate-free. -/
def ChainInv (S : List String) (results : List (String × List Bar))
    (remaining : List String) : Prop :=
  (∀ s, (s ∈ results.map Prod.fst ∨ s ∈ remaining) ↔ s ∈ S) ∧
  (∀ s, s ∈ results.map Prod.fst → s ∉ remaining) ∧
  (∀ pr ∈ results, pr.2 ≠ []) ∧
  remaining.Nodup

/-- A provider implementation faithful to the source providers: a
successful fetch returns one series per symbol (unique dict keys) and
only for requested symbols. -/
def GoodProvider (p : ProviderImpl) : Prop :=
  ∀ syms res, p.fetch syms = Except.ok res →
    (res.map Prod.fst).Nodup ∧ ∀ k ∈ res.map Prod.fst, k ∈ syms

theorem symbols_to_fetch_subset (name : String) (remaining : List String) :
    ∀ k ∈ symbols_to_fetch name remaining, k ∈ remaining := by
  intro k hk
  unfold symbols_to_fetch at hk
  by_cases h1 : name = "Alpha Vantage"
  · rw [if_pos h1] at hk
    exact List.take_subset _ _ hk
  · rw [if_neg h1] at hk
    by_cases h2 : name = "Polygon"
    · rw [if_pos h2] at hk
      exact List.take_subset _ _ hk
    · rwa [if_neg h2] at hk

/-- The merge loop preserves the chain invariant whenever the incoming
batch has unique keys drawn from the remaining set. -/
theorem merge_results_inv (S : List String) :
    ∀ (res results : List (String × List Bar)) (remaining : List String),
      (res.map Prod.fst).Nodup →
      (∀ k ∈ res.map Prod.fst, k ∈ remaining) →
      ChainInv S results remaining →
      ChainInv S (merge_results res results remaining).1
        (merge_results res results remaining).2 := by
  intro res
  induction res with
  | nil => intro results remaining _ _ hinv; exact hinv
  | cons kv rest ih =>
    intro results remaining hnd hsub hinv
    obtain ⟨hunion, hdisj, hne, hrem⟩ := hinv
    rw [List.map_cons, List.nodup_cons] at hnd
    have hhead : kv.1 ∈ remaining := hsub kv.1 (by simp)
    unfold merge_results
    by_cases hdf : kv.2 = []
    · rw [if_pos hdf]
      exact ih results remaining hnd.2
        (fun k hk => hsub k (by simp [hk]))
        ⟨hunion, hdisj, hne, hrem⟩
    · rw [if_neg hdf]
      apply ih (results ++ [kv]) (remaining.erase kv.1) hnd.2
      · intro k hk
        have hkr : k ∈ remaining := hsub k (by simp [hk])
        have hkne : k ≠ kv.1 := fun h => hnd.1 (h ▸ hk)
        exact (List.mem_erase_of_ne hkne).mpr hkr
      · refine ⟨?_, ?_, ?_, hrem.erase kv.1⟩
        · intro s
          rw [List.map_append, List.mem_append]
          constructor
          · rintro ((hs | hs) | hs)
            · exact (hunion s).mp (Or.inl hs)
            · have : s = kv.1 := by simpa using hs
              exact (hunion s).mp (Or.inr (this ▸ hhead))
            · exact (hunion s).mp (Or.inr (List.mem_of_mem_erase hs))
          · intro hs
            rcases (hunion s).mpr hs with hs1 | hs2
            · exact Or.inl (Or.inl hs1)
            · by_cases hkv : s = kv.1
              · exact Or.inl (Or.inr (by simp [hkv]))
              · exact Or.inr ((List.mem_erase_of_ne hkv).mpr hs2)
        · intro s hs
          rw [List.map_append, List.mem_append] at hs
          rcases hs with hs | hs
          · intro hmem
            exact hdisj s hs (List.mem_of_mem_erase hmem)
          · have : s = kv.1 := by simpa using hs
            rw [this]
            exact hrem.not_mem_erase
        · intro pr hpr
          rcases List.mem_append.mp hpr with hpr | hpr
          · exact hne pr hpr
          · have : pr = kv := by simpa using hpr
            rw [this]
            exact hdf

/-- The try block preserves the chain invariant for a faithful
provider. -/
theorem chain_try_inv (S : List String) (now : ℚ) (p : ProviderImpl)
    (acc : FetchAcc) (hp : GoodProvider p)
    (hinv : ChainInv S acc.results acc.remaining) :
    ChainInv S (chain_try now p acc).results (chain_try now p acc).remaining := by
  unfold chain_try
  by_cases hav : p.name = "Alpha Vantage" ∧ 10 < acc.remaining.length
  · rwa [if_pos hav]
  · rw [if_neg hav]
    dsimp only
    rcases hres : p.fetch (symbols_to_fetch p.name acc.remaining) with e | res
    · dsimp only
      by_cases hrl : e.rate_limited = true
      · rw [if_pos hrl]
        exact hinv
      · rw [if_neg hrl]
        exact hinv
    · dsimp only
      obtain ⟨hnd, hsub⟩ := hp _ _ hres
      exact merge_results_inv S res acc.results acc.remaining hnd
        (fun k hk => symbols_to_fetch_subset p.name acc.remaining k (hsub k hk)) hinv

/-- One provider step preserves the chain invariant. -/
theorem chain_step_inv (S : List String) (now : ℚ) (p : ProviderImpl)
    (acc : FetchAcc) (hp : GoodProvider p)
    (hinv : ChainInv S acc.results acc.remaining) :
    ChainInv S (chain_step now p acc).results (chain_step now p acc).remaining := by
  unfold chain_step
  by_cases hempty : acc.remaining = []
  · rwa [if_pos hempty]
  · rw [if_neg hempty]
    rcases hcd : alookup p.name acc.cooldowns with _ | u
    · dsimp only
      by_cases hav : p.available = true
      · rw [if_pos hav]
        exact chain_try_inv S now p acc hp hinv
      · rwa [if_neg hav]
    · dsimp only
      by_cases hnow : now < u
      · rwa [if_pos hnow]
      · rw [if_neg hnow]
        by_cases hav : p.available = true
        · rw [if_pos hav]
          exact chain_try_inv S now p _ hp hinv
        · rwa [if_neg hav]

/-- The whole provider loop preserves the chain invariant. -/
theorem run_chain_inv (S : List String) (now : ℚ) :
    ∀ (providers : List ProviderImpl) (acc : FetchAcc),
      (∀ p ∈ providers, GoodProvider p) →
      ChainInv S acc.results acc.remaining →
      ChainInv S (run_chain now providers acc).results
        (run_chain now providers acc).remaining := by
  intro providers
  induction providers with
  | nil => intro acc _ hinv; exact hinv
  | cons p ps ih =>
    intro acc hgood hinv
    unfold run_chain
    exact ih (chain_step now p acc)
      (fun q hq => hgood q (List.mem_cons_of_mem _ hq))
      (chain_step_inv S now p acc (hgood p (List.mem_cons_self _ _)) hinv)

/-- C5: for any chain of faithful providers, any cooldown state and any
input list, the returned results and the remaining (unresolved) set
partition the input symbol set, and every returned series holds at
least one bar. -/
theorem c5_results_remaining_partition (providers : List ProviderImpl)
    (cooldowns : List (String × ℚ)) (now : ℚ) (symbols : List String)
    (Hgood : ∀ p ∈ providers, GoodProvider p) :
    (∀ s, (s ∈ (fetch_daily_bars providers cooldowns now symbols).results.map Prod.fst ∨
        s ∈ (fetch_daily_bars providers cooldowns now symbols).remaining) ↔
        s ∈ symbols) ∧
    (∀ s, s ∈ (fetch_daily_bars providers cooldowns now symbols).results.map Prod.fst →
        s ∉ (fetch_daily_bars providers cooldowns now symbols).remaining) ∧
    (∀ pr ∈ (fetch_daily_bars providers cooldowns now symbols).results, pr.2 ≠ []) := by
  have hinit : ChainInv symbols ([] : List (String × List Bar)) symbols.dedup := by
    refine ⟨?_, ?_, ?_, symbols.nodup_dedup⟩
    · intro s
      simp [List.mem_dedup]
    · intro s hs
      simp at hs
    · intro pr hpr
      simp at hpr
  have h := run_chain_inv symbols now providers
    { results := [], remaining := symbols.dedup, cooldowns := cooldowns, calls := [] }
    Hgood hinit
  exact ⟨h.1, h.2.1, h.2.2.1⟩

/-- A faithful stub provider returning one bar for symbol A when it is
requested. -/
def providerA : ProviderImpl :=
  { name := "Yahoo Finance"
    available := true
    fetch := fun syms =>
      Except.ok (if "A" ∈ syms then [("A", [bar1])] else []) }

theorem providerA_good : GoodProvider providerA := by
  intro syms res hres
  simp only [providerA] at hres
  by_cases hA : "A" ∈ syms
  · rw [if_pos hA] at hres
    cases hres
    constructor
    · simp
    · intro k hk
      simp at hk
      rw [hk]
      exact hA
  · rw [if_neg hA] at hres
    cases hres
    constructor
    · simp
    · intro k hk
      simp at hk

/-- C5 witness: the partition equivalence applied to a concrete chain
and the symbol A. -/
theorem c5_results_remaining_partition_witness :
    ("A" ∈ (fetch_daily_bars [providerA] [] 0 ["A", "B"]).results.map Prod.fst ∨
      "A" ∈ (fetch_daily_bars [providerA] [] 0 ["A", "B"]).remaining) ↔
      "A" ∈ ["A", "B"] :=
  (c5_results_remaining_partition [providerA] [] 0 ["A", "B"]
    (by
      intro p hp
      have : p = providerA := by simpa using hp
      rw [this]
      exact providerA_good)).1 "A"

/-! ## Claim C4: the under-half cooldown heuristic -/

theorem alookup_dictSet_self (k : String) (v : ℚ) :
    ∀ m : List (String × ℚ), alookup k (dictSet k v m) = some v := by
  intro m
  induction m with
  | nil => simp [dictSet, alookup]
  | cons kv rest ih =>
    unfold dictSet
    by_cases h : kv.1 = k
    · rw [if_pos h]
      unfold alookup
      rw [if_pos h]
    · rw [if_neg h]
      unfold alookup
      rw [if_neg h]
      exact ih

theorem alookup_dictSet_ne (k key : String) (v : ℚ) (hne : key ≠ k) :
    ∀ m : List (String × ℚ), alookup k (dictSet key v m) = alookup k m := by
  intro m
  induction m with
  | nil => simp [dictSet, alookup, hne]
  | cons kv rest ih =>
    unfold dictSet
    by_cases h : kv.1 = key
    · rw [if_pos h]
      have hkk : ¬(kv.1 = k) := by
        rw [h]
        exact hne
      unfold alookup
      rw [if_neg hkk, if_neg hkk]
    · rw [if_neg h]
      unfold alookup
      by_cases h2 : kv.1 = k
      · rw [if_pos h2, if_pos h2]
      · rw [if_neg h2, if_neg h2]
        exact ih

theorem alookup_dictDel_ne (k key : String) (hne : key ≠ k) :
    ∀ m : List (String × ℚ), alookup k (dictDel key m) = alookup k m := by
  intro m
  induction m with
  | nil => rfl
  | cons kv rest ih =>
    unfold dictDel at ih ⊢
    rw [List.filter_cons]
    by_cases h : kv.1 = key
    · have hkk : ¬(kv.1 = k) := by
        rw [h]
        exact hne
      rw [if_neg (by simp [h]), ih]
      unfold alookup
      rw [if_neg hkk]
      cases rest with
      | nil => rfl
      | cons kv2 rest2 => rfl
    · rw [if_pos (by simp [h])]
      unfold alookup
      by_cases h2 : kv.1 = k
      · rw [if_pos h2, if_pos h2]
      · rw [if_neg h2, if_neg h2]
        exact ih

theorem alookup_of_mem_nodup (k : String) (v : ℚ) :
    ∀ m : List (String × ℚ), (m.map Prod.fst).Nodup → (k, v) ∈ m →
      alookup k m = some v := by
  intro m
  induction m with
  | nil =>
    intro _ h
    simp at h
  | cons kv rest ih =>
    intro hnd hmem
    rw [List.map_cons, List.nodup_cons] at hnd
    rcases List.mem_cons.mp hmem with heq | htail
    · rw [← heq]
      unfold alookup
      simp
    · unfold alookup
      by_cases h : kv.1 = k
      · exfalso
        apply hnd.1
        have hk : k ∈ rest.map Prod.fst := by
          simpa using List.mem_map_of_mem Prod.fst htail
        rw [h]
        exact hk
      · rw [if_neg h]
        exact ih hnd.2 htail

/-- A provider name is blocked for this run: its cooldown lies in the
future and it has not been called. -/
def CooldownBlocked (name : String) (now : ℚ) (acc : FetchAcc) : Prop :=
  (∃ u, alookup name acc.cooldowns = some u ∧ now < u) ∧ name ∉ acc.calls

theorem chain_try_blocked (name : String) (now : ℚ) (p : ProviderImpl)
    (acc : FetchAcc) (hpn : p.name ≠ name)
    (h : CooldownBlocked name now acc) :
    CooldownBlocked name now (chain_try now p acc) := by
  obtain ⟨⟨u, hu, hnu⟩, hcalls⟩ := h
  have hmemapp : name ∉ acc.calls ++ [p.name] := by
    intro hmem
    rcases List.mem_append.mp hmem with hmem | hmem
    · exact hcalls hmem
    · have hnp : name = p.name := by simpa using hmem
      exact hpn hnp.symm
  unfold chain_try
  by_cases hav : p.name = "Alpha Vantage" ∧ 10 < acc.remaining.length
  · rw [if_pos hav]
    exact ⟨⟨u, hu, hnu⟩, hcalls⟩
  · rw [if_neg hav]
    dsimp only
    rcases hres : p.fetch (symbols_to_fetch p.name acc.remaining) with e | res
    · dsimp only
      by_cases hrl : e.rate_limited = true
      · rw [if_pos hrl]
        refine ⟨⟨u, ?_, hnu⟩, hmemapp⟩
        rw [alookup_dictSet_ne name p.name (now + 60) hpn acc.cooldowns]
        exact hu
      · rw [if_neg hrl]
        exact ⟨⟨u, hu, hnu⟩, hmemapp⟩
    · dsimp only
      refine ⟨⟨u, ?_, hnu⟩, hmemapp⟩
      by_cases hc : 2 * res.length < (symbols_to_fetch p.name acc.remaining).length ∧
          p.name = "Finnhub"
      · rw [if_pos hc, alookup_dictSet_ne name p.name (now + 60) hpn acc.cooldowns]
        exact hu
      · rw [if_neg hc]
        exact hu

theorem chain_step_blocked (name : String) (now : ℚ) (p : ProviderImpl)
    (acc : FetchAcc) (h : CooldownBlocked name now acc) :
    CooldownBlocked name now (chain_step now p acc) := by
  obtain ⟨⟨u, hu, hnu⟩, hcalls⟩ := h
  unfold chain_step
  by_cases hempty : acc.remaining = []
  · rw [if_pos hempty]
    exact ⟨⟨u, hu, hnu⟩, hcalls⟩
  · rw [if_neg hempty]
    by_cases hpn : p.name = name
    · rw [hpn, hu]
      dsimp only
      rw [if_pos hnu]
      exact ⟨⟨u, hu, hnu⟩, hcalls⟩
    · rcases halk : alookup p.name acc.cooldowns with _ | u2
      · dsimp only
        by_cases hav : p.available = true
        · rw [if_pos hav]
          exact chain_try_blocked name now p acc hpn ⟨⟨u, hu, hnu⟩, hcalls⟩
        · rw [if_neg hav]
          exact ⟨⟨u, hu, hnu⟩, hcalls⟩
      · dsimp only
        by_cases hnow : now < u2
        · rw [if_pos hnow]
          exact ⟨⟨u, hu, hnu⟩, hcalls⟩
        · rw [if_neg hnow]
          have hu2 : alookup name (dictDel p.name acc.cooldowns) = some u :=
            (alookup_dictDel_ne name p.name hpn acc.cooldowns).trans hu
          by_cases hav : p.available = true
          · rw [if_pos hav]
            exact chain_try_blocked name now p _ hpn ⟨⟨u, hu2, hnu⟩, hcalls⟩
          · rw [if_neg hav]
            exact ⟨⟨u, hu2, hnu⟩, hcalls⟩

theorem run_chain_blocked (name : String) (now : ℚ) :
    ∀ (providers : List ProviderImpl) (acc : FetchAcc),
      CooldownBlocked name now acc →
      CooldownBlocked name now (run_chain now providers acc) := by
  intro providers
  induction providers with
  | nil =>
    intro acc h
    exact h
  | cons p ps ih =>
    intro acc h
    exact ih (chain_step now p acc) (chain_step_blocked name now p acc h)

/-- C4 (amended): a provider whose stored cooldown lies in the future is
never called during a run (its fetch does not appear in the call trace),
and the under-half heuristic after a successful call sets the 60-second
cooldown only when the provider is Finnhub — for every other provider
the cooldown map is left untouched. -/
theorem c4_underhalf_cooldown :
    (∀ (providers : List ProviderImpl) (cooldowns : List (String × ℚ))
        (now : ℚ) (symbols : List String) (name : String) (t : ℚ),
      (name, t) ∈ cooldowns → now < t → (cooldowns.map Prod.fst).Nodup →
      name ∉ (fetch_daily_bars providers cooldowns now symbols).calls) ∧
    (∀ (now : ℚ) (p : ProviderImpl) (acc : FetchAcc)
        (res : List (String × List Bar)),
      ¬(p.name = "Alpha Vantage" ∧ 10 < acc.remaining.length) →
      p.fetch (symbols_to_fetch p.name acc.remaining) = Except.ok res →
      2 * res.length < (symbols_to_fetch p.name acc.remaining).length →
      (p.name = "Finnhub" →
        alookup "Finnhub" (chain_try now p acc).cooldowns = some (now + 60)) ∧
      (p.name ≠ "Finnhub" → (chain_try now p acc).cooldowns = acc.cooldowns)) := by
  constructor
  · intro providers cooldowns now symbols name t hmem hnow hnd
    have hstart : CooldownBlocked name now
        { results := [], remaining := symbols.dedup,
          cooldowns := cooldowns, calls := [] } := by
      refine ⟨⟨t, ?_, hnow⟩, by simp⟩
      exact alookup_of_mem_nodup name t cooldowns hnd hmem
    exact (run_chain_blocked name now providers _ hstart).2
  · intro now p acc res hav hres hlen
    unfold chain_try
    rw [if_neg hav]
    dsimp only
    rw [hres]
    dsimp only
    constructor
    · intro hf
      rw [if_pos ⟨hlen, hf⟩, ← hf]
      exact alookup_dictSet_self p.name (now + 60) acc.cooldowns
    · intro hf
      rw [if_neg (fun hc => hf hc.2)]

/-- C4 witness: a provider with a live cooldown entry is absent from the
call trace of a run starting inside the cooldown window. -/
theorem c4_underhalf_cooldown_witness :
    "Yahoo Finance" ∉
      (fetch_daily_bars [providerA] [("Yahoo Finance", 2000)] 1000 ["A"]).calls :=
  c4_underhalf_cooldown.1 [providerA] [("Yahoo Finance", 2000)] 1000 ["A"]
    "Yahoo Finance" 2000 (by simp) (by norm_num) (by simp)

/-- A configured Yahoo Finance provider answering with no series. -/
def yahooEmpty : ProviderImpl :=
  { name := "Yahoo Finance"
    available := true
    fetch := fun _ => Except.ok [] }

/-- C4 counterexample: Yahoo Finance returns 0 of 2 requested symbols —
under half the batch — yet the run sets no cooldown for it, and a run
one second later calls it again.  The claim requires a cooldown for
every provider returning under half, blocking further calls until it
expires. -/
theorem c4_cooldown_counterexample :
    yahooEmpty.fetch ["A", "B"] = Except.ok [] ∧
    2 * ([] : List (String × List Bar)).length < (["A", "B"] : List String).length ∧
    (fetch_daily_bars [yahooEmpty] [] 1000 ["A", "B"]).cooldowns = [] ∧
    "Yahoo Finance" ∈ (fetch_daily_bars [yahooEmpty] [] 1001 ["A", "B"]).calls := by
  refine ⟨rfl, by norm_num, ?_, ?_⟩
  · rfl
  · decide

end RoboTrader
